import Mathlib

/-!
Verification of the buffered line-reassembly writer, panic-hook formatting and
one-time initialization guard of the `wasm-print` crate (`src/lib.rs`).

Text is modelled as `List Char`, byte sequences as `List Nat` (each entry a
byte value). `String::from_utf8_lossy` is embedded as `utf8DecodeLossy`,
following the Rust standard library's UTF-8 validation: one replacement
character per maximal invalid subpart, resuming at the offending byte, and one
replacement character for an incomplete sequence at end of input.
-/

namespace WasmPrint

/-- The replacement character U+FFFD emitted by lossy decoding. -/
def rfd : Char := Char.ofNat 0xFFFD

/-- The newline character. -/
def nl : Char := Char.ofNat 10

/-- Is `b` a UTF-8 continuation byte (`0x80..=0xBF`)? -/
def isCont (b : Nat) : Bool := 0x80 ≤ b && b ≤ 0xBF

/-- Valid second byte of a 3-byte sequence headed by `b` (per the Rust
standard library's validation ranges, which exclude surrogates). -/
def valid3Second (b c : Nat) : Bool :=
  if b = 0xE0 then 0xA0 ≤ c && c ≤ 0xBF
  else if b = 0xED then 0x80 ≤ c && c ≤ 0x9F
  else isCont c

/-- Valid second byte of a 4-byte sequence headed by `b` (per the Rust
standard library's validation ranges, which bound code points at U+10FFFF). -/
def valid4Second (b c : Nat) : Bool :=
  if b = 0xF0 then 0x90 ≤ c && c ≤ 0xBF
  else if b = 0xF4 then 0x80 ≤ c && c ≤ 0x8F
  else isCont c

/-- Embedding of `String::from_utf8_lossy`: decode a byte list to text,
replacing each maximal invalid subpart by one U+FFFD. -/
def utf8DecodeLossy : List Nat → List Char
  | [] => []
  | b :: rest =>
    if b < 0x80 then Char.ofNat b :: utf8DecodeLossy rest
    else if 0xC2 ≤ b && b ≤ 0xDF then
      match rest with
      | [] => [rfd]
      | c :: rest2 =>
        if isCont c then
          Char.ofNat ((b - 0xC0) * 0x40 + (c - 0x80)) :: utf8DecodeLossy rest2
        else rfd :: utf8DecodeLossy (c :: rest2)
    else if 0xE0 ≤ b && b ≤ 0xEF then
      match rest with
      | [] => [rfd]
      | c :: rest2 =>
        if valid3Second b c then
          match rest2 with
          | [] => [rfd]
          | d :: rest3 =>
            if isCont d then
              Char.ofNat (((b - 0xE0) * 0x40 + (c - 0x80)) * 0x40 + (d - 0x80)) ::
                utf8DecodeLossy rest3
            else rfd :: utf8DecodeLossy (d :: rest3)
        else rfd :: utf8DecodeLossy (c :: rest2)
    else if 0xF0 ≤ b && b ≤ 0xF4 then
      match rest with
      | [] => [rfd]
      | c :: rest2 =>
        if valid4Second b c then
          match rest2 with
          | [] => [rfd]
          | d :: rest3 =>
            if isCont d then
              match rest3 with
              | [] => [rfd]
              | e :: rest4 =>
                if isCont e then
                  Char.ofNat ((((b - 0xF0) * 0x40 + (c - 0x80)) * 0x40 + (d - 0x80)) * 0x40
                    + (e - 0x80)) :: utf8DecodeLossy rest4
                else rfd :: utf8DecodeLossy (e :: rest4)
            else rfd :: utf8DecodeLossy (d :: rest3)
        else rfd :: utf8DecodeLossy (c :: rest2)
    else rfd :: utf8DecodeLossy rest

/-- Embedding of `str::rfind('\n')`: index of the last newline in `l`, if any.
(`rfind` returns a byte index; since the split it feeds happens exactly at a
newline, the char-level index used here denotes the same split point.) -/
def rfindNewline : List Char → Option Nat
  | [] => none
  | c :: cs =>
    match rfindNewline cs with
    | some i => some (i + 1)
    | none => if c = nl then some 0 else none

/-- State of `Printer<T>` from `src/lib.rs`: the accumulation buffer and the
mode flag. The sink (`print_fn`) is passed explicitly to each operation. -/
structure Printer where
  buffer : List Char
  is_buffered : Bool
deriving DecidableEq, Repr

/-- `Printer::new`: fresh printer with an empty buffer. -/
def Printer.new (is_buffered : Bool) : Printer := ⟨[], is_buffered⟩

/-- Outcome of one `write` call: the returned `io::Result<usize>`, the
post-call printer state, and the arguments of the sink invocations made
(in order, whether or not they succeeded). -/
structure WriteResult (ε : Type) where
  result : Except ε Nat
  printer : Printer
  calls : List (List Char)

/-- Outcome of one `flush` call. -/
structure FlushResult (ε : Type) where
  result : Except ε Unit
  printer : Printer
  calls : List (List Char)

/-- Embedding of `<Printer as io::Write>::write`. The chunk is lossily
decoded and appended to the buffer; in unbuffered mode the whole buffer is
forwarded and cleared; in buffered mode everything before the last newline is
forwarded and everything after it retained. A `?`-propagated sink error leaves
the appended buffer in place. -/
def write {ε : Type} (sink : List Char → Except ε Unit) (p : Printer)
    (buf : List Nat) : WriteResult ε :=
  let buffer := p.buffer ++ utf8DecodeLossy buf
  if p.is_buffered = false then
    match sink buffer with
    | Except.error e => ⟨Except.error e, { p with buffer := buffer }, [buffer]⟩
    | Except.ok _ => ⟨Except.ok buf.length, { p with buffer := [] }, [buffer]⟩
  else
    match rfindNewline buffer with
    | some i =>
      match sink (buffer.take i) with
      | Except.error e => ⟨Except.error e, { p with buffer := buffer }, [buffer.take i]⟩
      | Except.ok _ =>
          ⟨Except.ok buf.length, { p with buffer := buffer.drop (i + 1) },
            [buffer.take i]⟩
    | none => ⟨Except.ok buf.length, { p with buffer := buffer }, []⟩

/-- Embedding of `<Printer as io::Write>::flush`: forward the whole buffer if
non-empty, then clear it; a no-op on an empty buffer. A sink error leaves the
buffer in place. -/
def flush {ε : Type} (sink : List Char → Except ε Unit) (p : Printer) :
    FlushResult ε :=
  if p.buffer.isEmpty then ⟨Except.ok (), p, []⟩
  else
    match sink p.buffer with
    | Except.error e => ⟨Except.error e, p, [p.buffer]⟩
    | Except.ok _ => ⟨Except.ok (), { p with buffer := [] }, [p.buffer]⟩

/-- A sink that cannot fail (error type `Empty`), standing for the successful
sinks `print`/`eprint` of `src/lib.rs`, which always return `Ok(())`. -/
def okSink : List Char → Except Empty Unit := fun _ => Except.ok ()

/-- Feed a list of byte chunks through successive `write` calls (with the
never-failing sink), returning the final printer state and all sink-call
arguments in order. -/
def runWrites (p : Printer) : List (List Nat) → Printer × List (List Char)
  | [] => (p, [])
  | c :: cs =>
    let r := write okSink p c
    let rest := runWrites r.printer cs
    (rest.1, r.calls ++ rest.2)

/-- Write all chunks through a fresh buffered printer, then flush once:
returns the sink-call arguments of the write phase and of the flush. -/
def pipeline (chunks : List (List Nat)) : List (List Char) × List (List Char) :=
  let r := runWrites (Printer.new true) chunks
  (r.2, (flush okSink r.1).calls)

/-! ## Panic hook (`set_panic_hook`)

The handler installed by `set_panic_hook` extracts a message from the panic
payload (the `&'static str` downcast, else the `String` downcast, else the
literal fallback) and formats it together with the optional source
location. The payload is modelled as the optional text the two downcasts
recover. -/

/-- A panic's data as seen by the installed hook: the optional message text
recovered from the payload, and the optional `(file, line, column)` source
location. -/
structure PanicInfo where
  payload : Option String
  location : Option (String × Nat × Nat)

/-- The single-quote character, as a one-character string. -/
def sq : String := String.singleton (Char.ofNat 39)

/-- Message extraction of the hook: the payload text when the downcast
succeeds, otherwise the literal fallback `unknown location`. -/
def panicMessage : Option String → String
  | some s => s
  | none => ("unknown location")

/-- The diagnostic string the hook builds (`err_info` in `set_panic_hook`)
and forwards to the trace sink. -/
def formatPanic (info : PanicInfo) : String :=
  let msg := panicMessage info.payload
  match info.location with
  | some (file, line, col) =>
      ("Panicked at ") ++ sq ++ msg ++ sq ++ (", ") ++ file ++ (":")
        ++ Nat.repr line ++ (":") ++ Nat.repr col
  | none => ("Panicked at an unknown location ") ++ sq ++ msg ++ sq

/-! ## One-time initialization (`hook` and `init`)

`hook()` runs `set_stdout(); set_stderr(); set_panic_hook()`. `init()` guards
`hook()` behind a `std::sync::Once`, whose sequential semantics is a one-way
boolean flag: the first `call_once` runs the closure, every later call is a
no-op. -/

/-- The three installation steps. -/
inductive SetupStep where
  | setStdout
  | setStderr
  | setPanicHook
deriving DecidableEq, Repr

/-- `hook()`: the install sequence it executes, in order. -/
def hook : List SetupStep := [SetupStep.setStdout, SetupStep.setStderr, SetupStep.setPanicHook]

/-- State of the `START: std::sync::Once` guard: whether `call_once` has
already run its closure. -/
structure OnceState where
  hasRun : Bool
deriving DecidableEq, Repr

/-- One call to `init()`: runs `hook()` if the guard has not fired yet,
otherwise does nothing. Returns the new guard state and the install steps
executed by this call. -/
def init (s : OnceState) : OnceState × List SetupStep :=
  if s.hasRun then (s, []) else (⟨true⟩, hook)

/-- `n` successive calls to `init()`, concatenating the install steps each
call executes. -/
def initN : Nat → OnceState → OnceState × List SetupStep
  | 0, s => (s, [])
  | n + 1, s =>
    let r := init s
    let rest := initN n r.1
    (rest.1, r.2 ++ rest.2)

/-! ## Helper lemmas -/

/-- If `rfindNewline` finds nothing, the list holds no newline. -/
theorem rfindNewline_none {l : List Char} (h : rfindNewline l = none) : nl ∉ l := by
  induction l with
  | nil => simp
  | cons c cs ih =>
    unfold rfindNewline at h
    cases hcs : rfindNewline cs with
    | some j => rw [hcs] at h; exact absurd h (by simp)
    | none =>
      rw [hcs] at h
      by_cases hc : c = nl
      · simp [hc] at h
      · have hne : nl ≠ c := fun he => hc he.symm
        simpa [hne] using ih hcs

/-- `rfindNewline` returns the position of the last newline: the element
there is a newline, splitting there reconstructs the list, and no newline
occurs after it. -/
theorem rfindNewline_some {l : List Char} {i : Nat} (h : rfindNewline l = some i) :
    l.take i ++ nl :: l.drop (i + 1) = l ∧ nl ∉ l.drop (i + 1) := by
  induction l generalizing i with
  | nil => simp [rfindNewline] at h
  | cons c cs ih =>
    unfold rfindNewline at h
    cases hcs : rfindNewline cs with
    | some j =>
      rw [hcs] at h
      have hij : j + 1 = i := by simpa using h
      subst hij
      obtain ⟨h1, h2⟩ := ih hcs
      refine ⟨?_, by simpa using h2⟩
      simpa using congrArg (c :: ·) h1
    | none =>
      rw [hcs] at h
      by_cases hc : c = nl
      · have hi : i = 0 := by simp [hc] at h; omega
        subst hi
        exact ⟨by simp [hc], by simpa using rfindNewline_none hcs⟩
      · simp [hc] at h

/-- One buffered `write` with the never-failing sink: re-appending a newline
to each forwarded segment and then the retained buffer reconstructs the old
buffer followed by the decoded chunk, and the mode is unchanged. -/
theorem write_reconstruct (p : Printer) (c : List Nat) (hb : p.is_buffered = true) :
    ((write okSink p c).calls.map (fun s => s ++ [nl])).flatten
        ++ (write okSink p c).printer.buffer = p.buffer ++ utf8DecodeLossy c
    ∧ (write okSink p c).printer.is_buffered = true := by
  unfold write
  cases h : rfindNewline (p.buffer ++ utf8DecodeLossy c) with
  | some i =>
    obtain ⟨h1, _⟩ := rfindNewline_some h
    simp [hb, okSink, h]
    simpa using h1
  | none => simp [hb, okSink, h]

/-- Running many buffered writes: newline-rejoined forwards plus the final
buffer reconstruct the concatenation of the per-chunk decodings. -/
theorem runWrites_reconstruct (chunks : List (List Nat)) (p : Printer)
    (hb : p.is_buffered = true) :
    ((runWrites p chunks).2.map (fun s => s ++ [nl])).flatten
        ++ (runWrites p chunks).1.buffer
      = p.buffer ++ (chunks.map utf8DecodeLossy).flatten
    ∧ (runWrites p chunks).1.is_buffered = true := by
  induction chunks generalizing p with
  | nil => exact ⟨by simp [runWrites], by simpa [runWrites] using hb⟩
  | cons c cs ih =>
    obtain ⟨w1, w2⟩ := write_reconstruct p c hb
    obtain ⟨r1, r2⟩ := ih (write okSink p c).printer w2
    refine ⟨?_, by simpa [runWrites] using r2⟩
    calc ((runWrites p (c :: cs)).2.map (fun s => s ++ [nl])).flatten
          ++ (runWrites p (c :: cs)).1.buffer
        = ((write okSink p c).calls.map (fun s => s ++ [nl])).flatten
            ++ (((runWrites (write okSink p c).printer cs).2.map
                  (fun s => s ++ [nl])).flatten
                ++ (runWrites (write okSink p c).printer cs).1.buffer) := by
          simp [runWrites]
      _ = ((write okSink p c).calls.map (fun s => s ++ [nl])).flatten
            ++ ((write okSink p c).printer.buffer
                ++ (cs.map utf8DecodeLossy).flatten) := by rw [r1]
      _ = (p.buffer ++ utf8DecodeLossy c) ++ (cs.map utf8DecodeLossy).flatten := by
          rw [← List.append_assoc, w1]
      _ = p.buffer ++ ((c :: cs).map utf8DecodeLossy).flatten := by simp

/-- `flush` with the never-failing sink: everything forwarded is exactly the
old buffer, and the buffer ends empty. -/
theorem flush_okSink (p : Printer) :
    (flush okSink p).calls.flatten = p.buffer
    ∧ (flush okSink p).printer.buffer = [] := by
  unfold flush
  by_cases h : p.buffer.isEmpty
  · have : p.buffer = [] := by simpa [List.isEmpty_iff] using h
    simp [h, this]
  · simp [h, okSink]

/-- `m` calls to `init` after the guard has fired do nothing. -/
theorem initN_hasRun (m : Nat) : initN m ⟨true⟩ = (⟨true⟩, []) := by
  induction m with
  | zero => rfl
  | succ k ih => simp [initN, init, ih]

/-! ## Claims -/

/-- C1, counterexample: writing the chunks `[0xC3]` and `[0xA9, 0x0A]`
through a fresh buffered writer and flushing once, the concatenation of the
sink-forwarded segments is two replacement characters, while the lossy
decoding of the whole byte sequence is `é` followed by a newline: the
trigger newline is dropped from the forwards, and a multi-byte character
split across chunks decodes differently per chunk. -/
theorem c1_counterexample :
    ((pipeline [[0xC3], [0xA9, 0x0A]]).1 ++ (pipeline [[0xC3], [0xA9, 0x0A]]).2).flatten
      ≠ utf8DecodeLossy [0xC3, 0xA9, 0x0A] := by decide

/-- C1, amended: for every byte sequence and chunking, after writing all
chunks through a fresh buffered writer and flushing once, re-appending one
newline to each segment forwarded during the write phase (each such segment
was cut at its trigger newline, which the code drops) and concatenating with
the flush-forwarded segments yields exactly the concatenation of the
per-chunk lossy decodings (the code decodes each chunk separately, so bytes
split across chunk boundaries are substituted per chunk); in particular no
forwarded text is duplicated or lost. -/
theorem c1_line_reassembly (chunks : List (List Nat)) :
    ((pipeline chunks).1.map (fun s => s ++ [nl])).flatten ++ (pipeline chunks).2.flatten
      = (chunks.map utf8DecodeLossy).flatten := by
  obtain ⟨h1, _⟩ := runWrites_reconstruct chunks (Printer.new true) rfl
  have f1 := (flush_okSink (runWrites (Printer.new true) chunks).1).1
  simp only [pipeline]
  rw [f1, h1]
  simp [Printer.new]

/-- C2: a buffered write appends the lossily decoded chunk to the buffer;
if the result has its last newline at position `i` it forwards exactly the
prefix before `i` and retains exactly the suffix after `i`, and if it has no
newline it forwards nothing and succeeds; in particular writing the bytes of
`abc\ndef` then `ghi\n` to a fresh buffered writer forwards `abc` then
`defghi`, retaining `def` then the empty buffer. -/
theorem c2_buffered_write_step (p : Printer) (chunk : List Nat)
    (hb : p.is_buffered = true) :
    (∀ i, rfindNewline (p.buffer ++ utf8DecodeLossy chunk) = some i →
        (write okSink p chunk).calls = [(p.buffer ++ utf8DecodeLossy chunk).take i]
        ∧ (write okSink p chunk).printer.buffer
            = (p.buffer ++ utf8DecodeLossy chunk).drop (i + 1)
        ∧ (write okSink p chunk).result = Except.ok chunk.length)
    ∧ (rfindNewline (p.buffer ++ utf8DecodeLossy chunk) = none →
        (write okSink p chunk).calls = []
        ∧ (write okSink p chunk).printer.buffer = p.buffer ++ utf8DecodeLossy chunk
        ∧ (write okSink p chunk).result = Except.ok chunk.length)
    ∧ (let r1 := write okSink (Printer.new true) [97, 98, 99, 10, 100, 101, 102]
       let r2 := write okSink r1.printer [103, 104, 105, 10]
       r1.calls = [("abc".toList)] ∧ r1.printer.buffer = ("def".toList)
       ∧ r2.calls = [("defghi".toList)] ∧ r2.printer.buffer = []) := by
  refine ⟨fun i hi => ?_, fun hn => ?_, by decide⟩
  · unfold write
    simp [hb, okSink, hi]
  · unfold write
    simp [hb, okSink, hn]

/-- C2, witness: instantiated at a fresh buffered writer. -/
theorem c2_buffered_write_step_witness :
    (Printer.new true).is_buffered = true
    ∧ ((∀ i, rfindNewline ((Printer.new true).buffer ++ utf8DecodeLossy [97, 10]) = some i →
        (write okSink (Printer.new true) [97, 10]).calls
            = [((Printer.new true).buffer ++ utf8DecodeLossy [97, 10]).take i]
        ∧ (write okSink (Printer.new true) [97, 10]).printer.buffer
            = ((Printer.new true).buffer ++ utf8DecodeLossy [97, 10]).drop (i + 1)
        ∧ (write okSink (Printer.new true) [97, 10]).result = Except.ok ([97, 10] : List Nat).length)
    ∧ (rfindNewline ((Printer.new true).buffer ++ utf8DecodeLossy [97, 10]) = none →
        (write okSink (Printer.new true) [97, 10]).calls = []
        ∧ (write okSink (Printer.new true) [97, 10]).printer.buffer
            = (Printer.new true).buffer ++ utf8DecodeLossy [97, 10]
        ∧ (write okSink (Printer.new true) [97, 10]).result = Except.ok ([97, 10] : List Nat).length)
    ∧ (let r1 := write okSink (Printer.new true) [97, 98, 99, 10, 100, 101, 102]
       let r2 := write okSink r1.printer [103, 104, 105, 10]
       r1.calls = [("abc".toList)] ∧ r1.printer.buffer = ("def".toList)
       ∧ r2.calls = [("defghi".toList)] ∧ r2.printer.buffer = [])) :=
  ⟨rfl, c2_buffered_write_step (Printer.new true) [97, 10] rfl⟩

/-- C3: a successful unbuffered write forwards exactly one string, the old
buffer followed by the lossily decoded chunk, and empties the buffer. -/
theorem c3_unbuffered_write (p : Printer) (chunk : List Nat)
    (hb : p.is_buffered = false) :
    (write okSink p chunk).calls = [p.buffer ++ utf8DecodeLossy chunk]
    ∧ (write okSink p chunk).printer.buffer = []
    ∧ (write okSink p chunk).result = Except.ok chunk.length := by
  unfold write
  simp [hb, okSink]

/-- C3, witness: instantiated at a fresh unbuffered writer. -/
theorem c3_unbuffered_write_witness :
    (Printer.new false).is_buffered = false
    ∧ ((write okSink (Printer.new false) [104, 105, 10]).calls
          = [(Printer.new false).buffer ++ utf8DecodeLossy [104, 105, 10]]
    ∧ (write okSink (Printer.new false) [104, 105, 10]).printer.buffer = []
    ∧ (write okSink (Printer.new false) [104, 105, 10]).result
          = Except.ok ([104, 105, 10] : List Nat).length) :=
  ⟨rfl, c3_unbuffered_write (Printer.new false) [104, 105, 10] rfl⟩

/-- C4: a successful flush on a non-empty buffer forwards the whole buffer
in one sink call and empties it; flush on an empty buffer makes no sink
call, changes nothing, and succeeds (with any sink). -/
theorem c4_flush {ε : Type} (sink : List Char → Except ε Unit) (p : Printer) :
    (p.buffer ≠ [] →
        (flush okSink p).calls = [p.buffer]
        ∧ (flush okSink p).printer.buffer = []
        ∧ (flush okSink p).result = Except.ok ())
    ∧ (p.buffer = [] →
        (flush sink p).calls = []
        ∧ (flush sink p).printer = p
        ∧ (flush sink p).result = Except.ok ()) := by
  constructor
  · intro h
    have hne : ¬ p.buffer.isEmpty := by simpa [List.isEmpty_iff] using h
    unfold flush
    simp [hne, okSink]
  · intro h
    have he : p.buffer.isEmpty := by simp [List.isEmpty_iff, h]
    unfold flush
    simp [he]

/-- C4, witness: a one-character buffer and an empty buffer. -/
theorem c4_flush_witness :
    ((Printer.mk [nl] true).buffer ≠ []
      ∧ ((flush okSink (Printer.mk [nl] true)).calls = [(Printer.mk [nl] true).buffer]
        ∧ (flush okSink (Printer.mk [nl] true)).printer.buffer = []
        ∧ (flush okSink (Printer.mk [nl] true)).result = Except.ok ()))
    ∧ ((Printer.new true).buffer = []
      ∧ ((flush okSink (Printer.new true)).calls = []
        ∧ (flush okSink (Printer.new true)).printer = Printer.new true
        ∧ (flush okSink (Printer.new true)).result = Except.ok ())) :=
  ⟨⟨by simp, (c4_flush okSink (Printer.mk [nl] true)).1 (by simp)⟩,
   ⟨rfl, (c4_flush okSink (Printer.new true)).2 rfl⟩⟩

/-- C5: if `write` returns a sink error then that error came from the single
sink invocation made, the buffer holds the old content plus the lossily
decoded triggering chunk, and a subsequent successful flush forwards exactly
that accumulated content. -/
theorem c5_error_preserves_buffer {ε : Type} (sink : List Char → Except ε Unit)
    (p : Printer) (chunk : List Nat) (e : ε)
    (h : (write sink p chunk).result = Except.error e) :
    (write sink p chunk).printer.buffer = p.buffer ++ utf8DecodeLossy chunk
    ∧ (∃ s, (write sink p chunk).calls = [s] ∧ sink s = Except.error e)
    ∧ (flush okSink (write sink p chunk).printer).calls.flatten
        = p.buffer ++ utf8DecodeLossy chunk := by
  have key : (write sink p chunk).printer.buffer = p.buffer ++ utf8DecodeLossy chunk
      ∧ ∃ s, (write sink p chunk).calls = [s] ∧ sink s = Except.error e := by
    by_cases hb : p.is_buffered = false
    · cases hs : sink (p.buffer ++ utf8DecodeLossy chunk) with
      | error e2 =>
        have he : e2 = e := by
          unfold write at h; simp only [hb, if_true, hs] at h; simpa using h
        have hbuf : (write sink p chunk).printer.buffer
            = p.buffer ++ utf8DecodeLossy chunk := by
          unfold write; simp [hb, hs]
        have hcalls : (write sink p chunk).calls
            = [p.buffer ++ utf8DecodeLossy chunk] := by
          unfold write; simp [hb, hs]
        exact ⟨hbuf, p.buffer ++ utf8DecodeLossy chunk, hcalls, by rw [hs, he]⟩
      | ok u => exfalso; unfold write at h; simp [hb, hs] at h
    · cases hr : rfindNewline (p.buffer ++ utf8DecodeLossy chunk) with
      | some i =>
        cases hs : sink ((p.buffer ++ utf8DecodeLossy chunk).take i) with
        | error e2 =>
          have he : e2 = e := by
            unfold write at h; simp only [hb, if_false, hr, hs] at h; simpa using h
          have hbuf : (write sink p chunk).printer.buffer
              = p.buffer ++ utf8DecodeLossy chunk := by
            unfold write; simp [hb, hr, hs]
          have hcalls : (write sink p chunk).calls
              = [(p.buffer ++ utf8DecodeLossy chunk).take i] := by
            unfold write; simp [hb, hr, hs]
          exact ⟨hbuf, (p.buffer ++ utf8DecodeLossy chunk).take i, hcalls,
            by rw [hs, he]⟩
        | ok u => exfalso; unfold write at h; simp [hb, hr, hs] at h
      | none => exfalso; unfold write at h; simp [hb, hr] at h
  exact ⟨key.1, key.2, by rw [(flush_okSink (write sink p chunk).printer).1, key.1]⟩

/-- A sink that always fails, for exercising the error path. -/
def errSink : List Char → Except Unit Unit := fun _ => Except.error ()

/-- C5, witness: the always-failing sink on the chunk `a` followed by a
newline, written to a fresh buffered writer. -/
theorem c5_error_preserves_buffer_witness :
    (write errSink (Printer.new true) [97, 10]).result = Except.error ()
    ∧ ((write errSink (Printer.new true) [97, 10]).printer.buffer
        = (Printer.new true).buffer ++ utf8DecodeLossy [97, 10]
    ∧ (∃ s, (write errSink (Printer.new true) [97, 10]).calls = [s]
        ∧ errSink s = Except.error ())
    ∧ (flush okSink (write errSink (Printer.new true) [97, 10]).printer).calls.flatten
        = (Printer.new true).buffer ++ utf8DecodeLossy [97, 10]) :=
  ⟨rfl, c5_error_preserves_buffer errSink (Printer.new true) [97, 10] () rfl⟩

/-- C6: `write` never returns a partial count — any successful result is the
full byte length of the input chunk — and with a non-failing sink it
succeeds with that count on every chunk, in either mode, malformed UTF-8
included. -/
theorem c6_full_acceptance {ε : Type} (sink : List Char → Except ε Unit)
    (p : Printer) (chunk : List Nat) :
    (∀ n, (write sink p chunk).result = Except.ok n → n = chunk.length)
    ∧ (write okSink p chunk).result = Except.ok chunk.length := by
  constructor
  · intro n hn
    unfold write at hn
    by_cases hb : p.is_buffered = false
    · cases hs : sink (p.buffer ++ utf8DecodeLossy chunk) with
      | error e2 => simp [hb, hs] at hn
      | ok u => simp only [hb, if_true, hs] at hn; simpa using hn.symm
    · cases hr : rfindNewline (p.buffer ++ utf8DecodeLossy chunk) with
      | some i =>
        cases hs : sink ((p.buffer ++ utf8DecodeLossy chunk).take i) with
        | error e2 => simp [hb, hr, hs] at hn
        | ok u => simp only [hb, if_false, hr, hs] at hn; simpa using hn.symm
      | none => simp only [hb, if_false, hr] at hn; simpa using hn.symm
  · unfold write
    by_cases hb : p.is_buffered = false
    · simp [hb, okSink]
    · cases hr : rfindNewline (p.buffer ++ utf8DecodeLossy chunk) with
      | some i => simp [hb, hr, okSink]
      | none => simp [hb, hr]

/-- C6, witness: an invalid-UTF-8 chunk on a fresh buffered writer is
accepted whole. -/
theorem c6_full_acceptance_witness :
    (write okSink (Printer.new true) [0xFF, 0x0A]).result
        = Except.ok ([0xFF, 0x0A] : List Nat).length
    ∧ (2 : Nat) = ([0xFF, 0x0A] : List Nat).length :=
  ⟨(c6_full_acceptance okSink (Printer.new true) [0xFF, 0x0A]).2,
   (c6_full_acceptance okSink (Printer.new true) [0xFF, 0x0A]).1 2 (by rfl)⟩

/-- C7: the panic hook formats an event with a source location as
`Panicked at '<message>', <file>:<line>:<column>` and one without as
`Panicked at an unknown location '<message>'`, the message being the payload
text when present and the literal `unknown location` otherwise; in
particular message `boom` at `(x.rs, 10, 3)` gives exactly
`Panicked at 'boom', x.rs:10:3`, and no message with no location gives
exactly `Panicked at an unknown location 'unknown location'`. -/
theorem c7_panic_format (m file : String) (line col : Nat) (pl : Option String) :
    formatPanic ⟨pl, some (file, line, col)⟩
        = ("Panicked at ") ++ sq ++ panicMessage pl ++ sq ++ (", ") ++ file ++ (":")
          ++ Nat.repr line ++ (":") ++ Nat.repr col
    ∧ formatPanic ⟨pl, none⟩
        = ("Panicked at an unknown location ") ++ sq ++ panicMessage pl ++ sq
    ∧ panicMessage (some m) = m
    ∧ panicMessage none = ("unknown location")
    ∧ formatPanic ⟨some ("boom"), some (("x.rs"), 10, 3)⟩
        = ("Panicked at ") ++ sq ++ ("boom") ++ sq ++ (", x.rs:10:3")
    ∧ formatPanic ⟨none, none⟩
        = ("Panicked at an unknown location ") ++ sq ++ ("unknown location") ++ sq :=
  ⟨rfl, rfl, rfl, rfl, by decide, rfl⟩

/-- C8: starting from the unfired guard, any positive number of `init` calls
executes the install sequence exactly once — the first call runs
`set_stdout`, `set_stderr`, `set_panic_hook` in order and flips the guard —
and every call after the guard has fired executes no step at all. -/
theorem c8_init_once (n : Nat) :
    (initN (n + 1) ⟨false⟩).2 = hook
    ∧ init ⟨false⟩ = (⟨true⟩, hook)
    ∧ (∀ m, (initN m ⟨true⟩).2 = [])
    ∧ hook.count SetupStep.setStdout = 1
    ∧ hook.count SetupStep.setStderr = 1
    ∧ hook.count SetupStep.setPanicHook = 1 := by
  refine ⟨?_, rfl, fun m => by rw [initN_hasRun], by decide, by decide, by decide⟩
  show (initN (n + 1) ⟨false⟩).2 = hook
  simp [initN, init, initN_hasRun n]

/-- C9: a buffered writer whose buffer holds no newline still holds no
newline after a successful write (the retained suffix lies strictly after
the last newline) and after a successful flush. -/
theorem c9_no_newline_invariant (p : Printer) (chunk : List Nat)
    (hb : p.is_buffered = true) (_hnl : nl ∉ p.buffer) :
    nl ∉ (write okSink p chunk).printer.buffer
    ∧ nl ∉ (flush okSink p).printer.buffer := by
  constructor
  · unfold write
    cases hr : rfindNewline (p.buffer ++ utf8DecodeLossy chunk) with
    | some i =>
      simp only [hb, if_false, hr, okSink]
      simpa using (rfindNewline_some hr).2
    | none =>
      simp only [hb, if_false, hr]
      simpa using rfindNewline_none hr
  · rw [(flush_okSink p).2]
    simp

/-- C9, witness: a fresh buffered writer and a chunk ending in a newline. -/
theorem c9_no_newline_invariant_witness :
    ((Printer.new true).is_buffered = true ∧ nl ∉ (Printer.new true).buffer)
    ∧ (nl ∉ (write okSink (Printer.new true) [97, 10]).printer.buffer
      ∧ nl ∉ (flush okSink (Printer.new true)).printer.buffer) :=
  ⟨⟨rfl, by simp [Printer.new]⟩,
   c9_no_newline_invariant (Printer.new true) [97, 10] rfl (by simp [Printer.new])⟩

/-- C10: in unbuffered mode every write makes exactly one sink invocation —
its argument being the buffer plus the decoded chunk — whatever the sink
returns; with an empty buffer and an empty chunk the sink is invoked once
with the empty string. -/
theorem c10_unbuffered_always_calls {ε : Type} (sink : List Char → Except ε Unit)
    (p : Printer) (chunk : List Nat) (hb : p.is_buffered = false) :
    (write sink p chunk).calls = [p.buffer ++ utf8DecodeLossy chunk]
    ∧ (write sink p chunk).calls.length = 1
    ∧ (write sink (Printer.new false) []).calls = [[]] := by
  have one : ∀ (q : Printer) (c : List Nat), q.is_buffered = false →
      (write sink q c).calls = [q.buffer ++ utf8DecodeLossy c] := by
    intro q c hq
    unfold write
    cases hs : sink (q.buffer ++ utf8DecodeLossy c) with
    | error e => simp [hq, hs]
    | ok u => simp [hq, hs]
  have empty : (write sink (Printer.new false) []).calls = [[]] := by
    rw [one (Printer.new false) [] rfl]
    simp [Printer.new, utf8DecodeLossy]
  exact ⟨one p chunk hb, by rw [one p chunk hb]; rfl, empty⟩

/-- C10, witness: a fresh unbuffered writer written an empty chunk. -/
theorem c10_unbuffered_always_calls_witness :
    (Printer.new false).is_buffered = false
    ∧ ((write okSink (Printer.new false) ([] : List Nat)).calls
          = [(Printer.new false).buffer ++ utf8DecodeLossy []]
      ∧ (write okSink (Printer.new false) ([] : List Nat)).calls.length = 1
      ∧ (write okSink (Printer.new false) ([] : List Nat)).calls = [[]]) :=
  ⟨rfl, c10_unbuffered_always_calls okSink (Printer.new false) [] rfl⟩

end WasmPrint
